import Mathlib

/-!
Verification of the Task-Management backend core (Go) against its
specification.  The Go source is shallowly embedded: pure validation
logic becomes Lean functions, store / crypto / token dependencies become
explicit oracle records, and each use-case call additionally returns the
list of dependency calls it made (its event trace).  Machine integers
(int64 counts, Unix seconds) are modelled as Int; Go string length
(bytes) is String.utf8ByteSize.
-/

namespace TaskMgmt

/-- Flags of a jwt-go (v3.2.0) ValidationError bitmask, as produced while
parsing and validating a token. -/
structure ValidationError where
  malformed : Bool := false
  unverifiable : Bool := false
  sigInvalid : Bool := false
  expired : Bool := false
  issuedAt : Bool := false
  notValidYet : Bool := false
  deriving DecidableEq, Repr

/-- Go error values occurring in the embedded code: the Domain package's
sentinel errors (compared by identity in the source), jwt-go validation
errors, and ad-hoc errors.New messages. -/
inductive GoErr where
  | taskNotFound
  | invalidTaskID
  | userExists
  | userNotFound
  | invalidUserID
  | invalidCredentials
  | unauthorized
  | invalidDueDate
  | jwtValidation (ve : ValidationError)
  | msg (s : String)
  deriving DecidableEq, Repr

/-- Domain.User: ID is modelled as the hex string of the ObjectID. -/
structure User where
  id : String
  username : String
  password : String
  role : String
  deriving DecidableEq, Repr

/-- Domain.Credentials. -/
structure Credentials where
  username : String
  password : String
  deriving DecidableEq, Repr

/-- Domain.Task: DueDate (time.Time) is an instant in Unix seconds; the Go
zero time value is modelled as 0 (Task.DueDate.IsZero iff dueDate = 0). -/
structure Task where
  title : String
  description : String
  dueDate : Int
  status : String
  deriving DecidableEq, Repr

/-- Oracle for the Domain.UserRepository dependency as observed during a
single use-case call.  getByUsername mirrors the Go signature
(*User, error) as a pair of options. -/
structure UserRepo where
  getByUsername : String → Option User × Option GoErr
  getUserCount : Except GoErr Int
  createUser : User → Option GoErr

/-- Oracle for the Domain.PasswordService dependency. -/
structure PasswordSvc where
  hashPassword : String → Except GoErr String
  checkPassword : String → String → Bool

/-- Oracle for the Domain.JWTService dependency as used by Login. -/
structure JWTSvc where
  generateToken : String → String → String → Except GoErr String

/-- Dependency calls a Register run can make, in order. -/
inductive RegEvent where
  | getByUsername (username : String)
  | hashPassword (password : String)
  | getUserCount
  | createUser (user : User)
  deriving DecidableEq, Repr

/-- The early-return condition of Register's lookup step:
if err != nil and err != ErrUserNotFound then return err. -/
def regLookupStop (err : Option GoErr) : Option GoErr :=
  match err with
  | some e => if e = GoErr.userNotFound then none else some e
  | none => none

/-- userUseCase.Register (Usecases/user_usecases.go).  On success the
value is the user handed to the store's CreateUser; the second component
is the trace of dependency calls. -/
def Register (repo : UserRepo) (pwd : PasswordSvc) (user : User) :
    Except GoErr User × List RegEvent :=
  if user.username = "" then (.error (.msg "username cannot be empty"), [])
  else if user.password = "" then (.error (.msg "password cannot be empty"), [])
  else if user.password.utf8ByteSize < 8 then
    (.error (.msg "password must be at least 8 characters"), [])
  else
    match repo.getByUsername user.username with
    | (existing, lookupErr) =>
      match regLookupStop lookupErr with
      | some e => (.error e, [.getByUsername user.username])
      | none =>
        match existing with
        | some _ => (.error .userExists, [.getByUsername user.username])
        | none =>
          match pwd.hashPassword user.password with
          | .error e =>
            (.error e, [.getByUsername user.username, .hashPassword user.password])
          | .ok hashed =>
            let u1 : User := { user with password := hashed, role := "user" }
            match repo.getUserCount with
            | .error e =>
              (.error e,
               [.getByUsername user.username, .hashPassword user.password, .getUserCount])
            | .ok count =>
              let u2 : User := if count = 0 then { u1 with role := "admin" } else u1
              let tr : List RegEvent :=
                [.getByUsername user.username, .hashPassword user.password,
                 .getUserCount, .createUser u2]
              match repo.createUser u2 with
              | some e => (.error e, tr)
              | none => (.ok u2, tr)

/-- Result of userUseCase.Login, mirroring the Go triple
(string, *User, error); nilDeref marks the (nil user, nil error)
store answer on which the Go code would dereference a nil pointer. -/
inductive LoginResult where
  | ret (token : String) (user : Option User) (err : Option GoErr)
  | nilDeref
  deriving DecidableEq, Repr

/-- userUseCase.Login (Usecases/user_usecases.go). -/
def Login (repo : UserRepo) (pwd : PasswordSvc) (jwt : JWTSvc)
    (creds : Credentials) : LoginResult :=
  if creds.username = "" ∨ creds.password = "" then
    .ret "" none (some (.msg "username and password are required"))
  else
    match repo.getByUsername creds.username with
    | (_, some e) =>
      if e = GoErr.userNotFound then .ret "" none (some .invalidCredentials)
      else .ret "" none (some e)
    | (some user, none) =>
      if pwd.checkPassword user.password creds.password = false then
        .ret "" none (some .invalidCredentials)
      else
        match jwt.generateToken user.id user.username user.role with
        | .error e => .ret "" none (some e)
        | .ok token =>
          .ret token
            (some { id := user.id, username := user.username,
                    password := "", role := user.role }) none
    | (none, none) => .nilDeref

/-- A token claim value as seen after JSON decoding into a jwt-go
MapClaims entry: a string, a number (exp values in this system are whole
Unix seconds, modelled as Int), or anything else. -/
inductive ClaimVal where
  | str (s : String)
  | num (v : Int)
  | other
  deriving DecidableEq, Repr

/-- jwt-go MapClaims, as an association list with distinct keys. -/
abbrev Claims := List (String × ClaimVal)

/-- Map lookup on the claims. -/
def lookupClaim (cs : Claims) (k : String) : Option ClaimVal :=
  match cs with
  | [] => none
  | (k₀, v) :: rest => if k₀ = k then some v else lookupClaim rest k

/-- The signing method declared in a token header: jwt-go's HMAC family
(the only family the service's keyfunc accepts), or any other. -/
inductive SigMethod where
  | hmac
  | other
  deriving DecidableEq, Repr

/-- A structurally well-formed token: declared signing method, decoded
claims, and the key its signature was produced with (signature
verification succeeds iff that key equals the verifier's secret). -/
structure RawToken where
  method : SigMethod
  claims : Claims
  key : String
  deriving DecidableEq, Repr

/-- A token string handed to ValidateToken: the empty string, a
structurally malformed string, or a well-formed token. -/
inductive TokenInput where
  | empty
  | malformed
  | raw (t : RawToken)
  deriving DecidableEq, Repr

/-- jwt-go MapClaims.VerifyExpiresAt(now, false): true when the exp claim
is absent or non-numeric or numerically 0, else when now <= exp. -/
def verifyExpAt (cs : Claims) (now : Int) : Bool :=
  match lookupClaim cs "exp" with
  | some (.num e) => if e = 0 then true else decide (now ≤ e)
  | _ => true

/-- jwt-go MapClaims.VerifyIssuedAt(now, false). -/
def verifyIatAt (cs : Claims) (now : Int) : Bool :=
  match lookupClaim cs "iat" with
  | some (.num i) => if i = 0 then true else decide (i ≤ now)
  | _ => true

/-- jwt-go MapClaims.VerifyNotBefore(now, false). -/
def verifyNbfAt (cs : Claims) (now : Int) : Bool :=
  match lookupClaim cs "nbf" with
  | some (.num n) => if n = 0 then true else decide (n ≤ now)
  | _ => true

/-- jwt-go MapClaims.Valid() at time now: none when every registered
claim check passes, otherwise the accumulated ValidationError flags. -/
def mapClaimsValid (cs : Claims) (now : Int) : Option ValidationError :=
  if verifyExpAt cs now && verifyIatAt cs now && verifyNbfAt cs now then none
  else some { expired := !verifyExpAt cs now,
              issuedAt := !verifyIatAt cs now,
              notValidYet := !verifyNbfAt cs now }

/-- jwt.Parse with the service's keyfunc (jwt_service.go): malformed input
fails; a non-HMAC method makes the keyfunc error (unverifiable); then
claims are validated and the signature checked against the secret, the
two error sources accumulating into one ValidationError.  A token is
returned (Valid = true) exactly when no error is. -/
def jwtParse (secret : String) (now : Int) : TokenInput → Except GoErr RawToken
  | .empty => .error (.jwtValidation { malformed := true })
  | .malformed => .error (.jwtValidation { malformed := true })
  | .raw t =>
    if t.method = SigMethod.hmac then
      match mapClaimsValid t.claims now, decide (t.key = secret) with
      | none, true => .ok t
      | some ve, true => .error (.jwtValidation ve)
      | none, false => .error (.jwtValidation { sigInvalid := true })
      | some ve, false => .error (.jwtValidation { ve with sigInvalid := true })
    else .error (.jwtValidation { unverifiable := true })

/-- JWTService.ValidateToken (Infrastructure/jwt_service.go): empty-string
check, jwt.Parse, then the manual expiry check on the MapClaims (the
parsed token's Valid flag is necessarily true here). -/
def ValidateToken (secret : String) (now : Int) (input : TokenInput) :
    Except GoErr RawToken :=
  match input with
  | .empty => .error (.msg "token cannot be empty")
  | inp =>
    match jwtParse secret now inp with
    | .error e => .error e
    | .ok tok =>
      match lookupClaim tok.claims "exp" with
      | some (.num e) =>
        if now > e then .error (.msg "Token is expired") else .ok tok
      | _ => .error (.msg "invalid expiration claim")

/-- JWTService.GenerateToken (Infrastructure/jwt_service.go): issues an
HS256 token signed with the secret, with claims userId, username, role
and exp = now + 24h. -/
def GenerateToken (secret : String) (now : Int)
    (userID username role : String) : Except GoErr RawToken :=
  if userID = "" then .error (.msg "userID cannot be empty")
  else if username = "" then .error (.msg "username cannot be empty")
  else if role = "" then .error (.msg "role cannot be empty")
  else
    .ok { method := .hmac,
          key := secret,
          claims := [("userId", .str userID), ("username", .str username),
                     ("role", .str role), ("exp", .num (now + 86400))] }

/-- An error that is specifically about expiry: either the manual check's
errors.New message or a jwt-go ValidationError with the expired flag. -/
def isExpiryError : GoErr → Bool
  | .msg s => decide (s = "Token is expired")
  | .jwtValidation ve => ve.expired
  | _ => false

/-- The request-scoped values the auth middleware attaches for downstream
handlers (gin context keys userID, username, role). -/
structure ReqContext where
  userID : Option ClaimVal
  username : Option ClaimVal
  role : Option ClaimVal
  deriving DecidableEq, Repr

/-- Outcome of a middleware run: abort with a status code and error
message, or proceed to the next handler with attached context. -/
inductive MwOutcome where
  | reject (status : Nat) (errMsg : String)
  | proceed (ctx : ReqContext)
  deriving DecidableEq, Repr

/-- AuthMiddleWare.Handler (Infrastructure auth middleware): empty
Authorization header rejects 401; a ValidateToken error rejects 401;
otherwise the values of the sub, username and role claims are attached
to the request context and the chain proceeds. -/
def authHandler (secret : String) (now : Int) (authHeader : TokenInput) :
    MwOutcome :=
  match authHeader with
  | .empty => .reject 401 "authorization header required"
  | inp =>
    match ValidateToken secret now inp with
    | .error _ => .reject 401 "invalid token"
    | .ok tok =>
      .proceed { userID := lookupClaim tok.claims "sub",
                 username := lookupClaim tok.claims "username",
                 role := lookupClaim tok.claims "role" }

/-- Oracle for the Domain.TaskRepository dependency (the operations the
task use case delegates to for the properties below). -/
structure TaskRepo where
  createTask : Task → Except GoErr Task
  updateTask : String → Task → Except GoErr Task

/-- Dependency calls a task use-case run can make. -/
inductive TaskEvent where
  | createTask (task : Task)
  | updateTask (id : String) (task : Task)
  deriving DecidableEq, Repr

/-- The valid-status table of the task use case. -/
def validStatus (s : String) : Bool :=
  decide (s = "pending") || decide (s = "in_progress") || decide (s = "completed")

/-- taskUseCase.CreateTask (Usecases/task_usecases.go): field validation,
status defaulting to pending, the date check time.Until(DueDate) < 0
(that is, dueDate < now), the status table, then delegation. -/
def CreateTask (repo : TaskRepo) (now : Int) (task : Task) :
    Except GoErr Task × List TaskEvent :=
  if task.title = "" then (.error (.msg "task title cannot be empty"), [])
  else if task.description = "" then
    (.error (.msg "task description cannot be empty"), [])
  else if task.dueDate = 0 then (.error (.msg "due date cannot be empty"), [])
  else
    let task1 := if task.status = "" then { task with status := "pending" } else task
    if task1.dueDate < now then (.error (.msg "due date must be in the future"), [])
    else if validStatus task1.status = false then
      (.error (.msg "invalid task status"), [])
    else (repo.createTask task1, [.createTask task1])

/-- taskUseCase.UpdateTask (Usecases/task_usecases.go): id check,
all-fields-empty check, status table when status is provided, date check
when a due date is provided, then delegation of the partial merge. -/
def UpdateTask (repo : TaskRepo) (now : Int) (id : String) (task : Task) :
    Except GoErr Task × List TaskEvent :=
  if id = "" then (.error (.msg "task ID cannot be empty"), [])
  else if task.title = "" ∧ task.description = "" ∧
          task.dueDate = 0 ∧ task.status = "" then
    (.error (.msg "no valid fields provided for update"), [])
  else if task.status ≠ "" ∧ validStatus task.status = false then
    (.error (.msg "invalid task status"), [])
  else if task.dueDate ≠ 0 ∧ task.dueDate < now then
    (.error (.msg "due date must be in the future"), [])
  else (repo.updateTask id task, [.updateTask id task])

/-- golang.org x crypto bcrypt, GenerateFromPassword's cost default. -/
def bcryptDefaultCost : Nat := 10

/-- A bcrypt hash value: the encoded string determines and is determined
by the cost, the random salt, and the derived key, so it is modelled as
that triple. -/
structure BcryptHash where
  cost : Nat
  salt : Nat
  digest : Nat
  deriving DecidableEq, Repr

/-- Abstraction of the bcrypt key-derivation core (EksBlowfish): some
fixed computable function of cost, salt and password; the development
only relies on it being deterministic in those three inputs. -/
def bcryptKey (cost salt : Nat) (password : String) : Nat :=
  (password.toUTF8.toList.foldl (fun a b => a * 256 + b.toNat) 7) * 65536 +
    salt * 256 + cost

/-- bcrypt.GenerateFromPassword with an explicit salt drawn from the
random source: rejects passwords longer than 72 bytes, otherwise embeds
cost and salt in the produced hash together with the derived key. -/
def generateFromPassword (salt : Nat) (password : String) (cost : Nat) :
    Except GoErr BcryptHash :=
  if 72 < password.utf8ByteSize then
    .error (.msg "bcrypt: password length exceeds 72 bytes")
  else .ok { cost := cost, salt := salt, digest := bcryptKey cost salt password }

/-- bcrypt.CompareHashAndPassword: re-derives the key from the hash's
embedded cost and salt and the supplied password and compares; the
length guard applies to the supplied password as well. -/
def compareHashAndPassword (hash : BcryptHash) (password : String) : Bool :=
  decide (password.utf8ByteSize ≤ 72) &&
    decide (bcryptKey hash.cost hash.salt password = hash.digest)

/-- passwordService.HashPassword (Infrastructure password service):
bcrypt.GenerateFromPassword at DefaultCost, the salt supplied by the
random source surfaced as a parameter. -/
def HashPassword (salt : Nat) (password : String) : Except GoErr BcryptHash :=
  generateFromPassword salt password bcryptDefaultCost

/-- passwordService.CheckPassword: true iff bcrypt comparison succeeds. -/
def CheckPassword (hashed : BcryptHash) (plain : String) : Bool :=
  compareHashAndPassword hashed plain

/-- C1: for every successful call to Register, the role persisted with
the user is determined solely by the store's user count at registration
time: count exactly zero gives role admin, count one or more gives role
user. -/
theorem register_role_determined_by_count
    (repo : UserRepo) (pwd : PasswordSvc) (user created : User) (count : Int)
    (hcount : repo.getUserCount = Except.ok count)
    (hok : (Register repo pwd user).1 = Except.ok created) :
    (count = 0 → created.role = "admin") ∧ (1 ≤ count → created.role = "user") := by
  simp only [Register] at hok
  repeat' split at hok
  all_goals simp_all
  all_goals (try constructor)
  all_goals (try intro hc)
  all_goals (first
    | rfl
    | (subst hok; rfl)
    | exact absurd hc (by omega))

/-- A store with no users: lookups miss and the count is zero. -/
def demoRepoEmpty : UserRepo :=
  { getByUsername := fun _ => (none, some .userNotFound),
    getUserCount := .ok 0,
    createUser := fun _ => none }

/-- A deterministic stand-in password service for concrete runs. -/
def demoPwdSvc : PasswordSvc :=
  { hashPassword := fun p => .ok ("h" ++ p),
    checkPassword := fun hashed plain => decide (hashed = "h" ++ plain) }

/-- A fresh registration input. -/
def demoNewUser : User :=
  { id := "u1", username := "alice", password := "password1", role := "" }

/-- The user Register hands to the store when demoNewUser registers
against the empty store. -/
def demoCreatedUser : User :=
  { id := "u1", username := "alice", password := "hpassword1", role := "admin" }

/-- Witness for C1: the very first registration in an empty store (count
zero) persists role admin. -/
theorem register_role_determined_by_count_witness :
    demoRepoEmpty.getUserCount = Except.ok 0 ∧
    (Register demoRepoEmpty demoPwdSvc demoNewUser).1 = Except.ok demoCreatedUser ∧
    (((0 : Int) = 0 → demoCreatedUser.role = "admin") ∧
     (1 ≤ (0 : Int) → demoCreatedUser.role = "user")) :=
  ⟨rfl, rfl,
   register_role_determined_by_count demoRepoEmpty demoPwdSvc demoNewUser
     demoCreatedUser 0 rfl rfl⟩

/-- C9: the persisted role never depends on the Role field of the input
user: two registration inputs differing only in Role, run against the
same store, produce identical results (and identical traces, so the user
handed to CreateUser is identical). -/
theorem register_ignores_input_role (repo : UserRepo) (pwd : PasswordSvc)
    (user : User) (r₁ r₂ : String) :
    Register repo pwd { user with role := r₁ } =
      Register repo pwd { user with role := r₂ } := rfl

/-- C6: registering a username that already exists in the store fails
with UserExists, and neither the password-hashing service nor the
store's create operation is invoked. -/
theorem register_existing_username_stops
    (repo : UserRepo) (pwd : PasswordSvc) (user w : User)
    (hu : user.username ≠ "") (hp : user.password ≠ "")
    (hlen : 8 ≤ user.password.utf8ByteSize)
    (hex : repo.getByUsername user.username = (some w, none)) :
    (Register repo pwd user).1 = Except.error GoErr.userExists ∧
    (∀ p, RegEvent.hashPassword p ∉ (Register repo pwd user).2) ∧
    (∀ v, RegEvent.createUser v ∉ (Register repo pwd user).2) := by
  have hlen' : ¬ user.password.utf8ByteSize < 8 := by omega
  have h : Register repo pwd user =
      (.error .userExists, [.getByUsername user.username]) := by
    simp [Register, hex, regLookupStop, hu, hp, hlen']
  rw [h]
  simp

/-- A store already holding the user alice. -/
def demoRepoExisting : UserRepo :=
  { getByUsername := fun _ =>
      (some { id := "u0", username := "alice", password := "hsecret99", role := "admin" }, none),
    getUserCount := .ok 1,
    createUser := fun _ => none }

/-- Witness for C6: re-registering alice against demoRepoExisting. -/
theorem register_existing_username_stops_witness :
    (Register demoRepoExisting demoPwdSvc demoNewUser).1 = Except.error GoErr.userExists ∧
    (∀ p, RegEvent.hashPassword p ∉ (Register demoRepoExisting demoPwdSvc demoNewUser).2) ∧
    (∀ v, RegEvent.createUser v ∉ (Register demoRepoExisting demoPwdSvc demoNewUser).2) :=
  register_existing_username_stops demoRepoExisting demoPwdSvc demoNewUser
    { id := "u0", username := "alice", password := "hsecret99", role := "admin" }
    (by decide) (by decide) (by decide) rfl

/-- C3: with non-empty credentials, Login returns the same value, the
triple of empty token, nil user and the InvalidCredentials sentinel, both
when the store misses the username and when the user exists but the
password check fails; the two cases are indistinguishable by the
returned values. -/
theorem login_failure_indistinguishable
    (repo₁ repo₂ : UserRepo) (pwd₁ pwd₂ : PasswordSvc) (jwt₁ jwt₂ : JWTSvc)
    (creds : Credentials) (u : User)
    (hu : creds.username ≠ "") (hp : creds.password ≠ "")
    (h₁ : repo₁.getByUsername creds.username = (none, some GoErr.userNotFound))
    (h₂ : repo₂.getByUsername creds.username = (some u, none))
    (hpw : pwd₂.checkPassword u.password creds.password = false) :
    Login repo₁ pwd₁ jwt₁ creds = LoginResult.ret "" none (some GoErr.invalidCredentials) ∧
    Login repo₂ pwd₂ jwt₂ creds = LoginResult.ret "" none (some GoErr.invalidCredentials) := by
  constructor
  · simp [Login, h₁, hu, hp]
  · simp [Login, h₂, hu, hp, hpw]

/-- A token service stand-in for concrete runs. -/
def demoJwtSvc : JWTSvc :=
  { generateToken := fun i n r => .ok (i ++ "." ++ n ++ "." ++ r) }

/-- Witness for C3: a missing username and a wrong password for an
existing user produce the identical Login value. -/
theorem login_failure_indistinguishable_witness :
    Login demoRepoEmpty demoPwdSvc demoJwtSvc { username := "alice", password := "wrongpass" }
      = LoginResult.ret "" none (some GoErr.invalidCredentials) ∧
    Login demoRepoExisting demoPwdSvc demoJwtSvc { username := "alice", password := "wrongpass" }
      = LoginResult.ret "" none (some GoErr.invalidCredentials) :=
  login_failure_indistinguishable demoRepoEmpty demoRepoExisting demoPwdSvc demoPwdSvc
    demoJwtSvc demoJwtSvc { username := "alice", password := "wrongpass" }
    { id := "u0", username := "alice", password := "hsecret99", role := "admin" }
    (by decide) (by decide) rfl rfl (by decide)

/-- C4: a well-formed token signed by HMAC with the verifier's secret
whose embedded exp (a positive Unix timestamp) lies strictly in the past
relative to the verification time is rejected with an expiry-specific
error, regardless of the rest of its claims (so regardless of whether it
was ever valid); the comparison uses the token's own exp claim against
the time of verification. -/
theorem validate_token_rejects_past_exp
    (secret : String) (now e : Int) (t : RawToken)
    (hm : t.method = SigMethod.hmac) (hk : t.key = secret)
    (hexp : lookupClaim t.claims "exp" = some (.num e))
    (hpos : 0 < e) (hpast : e < now) :
    ∃ err, ValidateToken secret now (.raw t) = .error err ∧
      isExpiryError err = true := by
  have hne : ¬ e = 0 := by omega
  have hnle : ¬ now ≤ e := by omega
  have hexpAt : verifyExpAt t.claims now = false := by
    simp [verifyExpAt, hexp, hne, hnle]
  refine ⟨GoErr.jwtValidation
      { expired := true,
        issuedAt := !(verifyIatAt t.claims now),
        notValidYet := !(verifyNbfAt t.claims now) }, ?_, rfl⟩
  simp [ValidateToken, jwtParse, hm, hk, mapClaimsValid, hexpAt]

/-- A token carrying a positive exp timestamp that is already past. -/
def demoExpiredToken : RawToken :=
  { method := .hmac,
    claims := [("userId", .str "u1"), ("exp", .num 50)],
    key := "topsecret" }

/-- Witness for C4: demoExpiredToken verified at time 100. -/
theorem validate_token_rejects_past_exp_witness :
    ∃ err, ValidateToken "topsecret" 100 (.raw demoExpiredToken) = .error err ∧
      isExpiryError err = true :=
  validate_token_rejects_past_exp "topsecret" 100 50 demoExpiredToken
    rfl rfl rfl (by decide) (by decide)

/-- Successful jwt parsing returns exactly the well-formed input token. -/
theorem jwtParse_ok_inversion (secret : String) (now : Int)
    (inp : TokenInput) (tok : RawToken)
    (h : jwtParse secret now inp = Except.ok tok) : inp = TokenInput.raw tok := by
  cases inp with
  | empty => simp [jwtParse] at h
  | malformed => simp [jwtParse] at h
  | raw t =>
    simp only [jwtParse] at h
    by_cases hm : t.method = SigMethod.hmac
    · rw [if_pos hm] at h
      cases hc : mapClaimsValid t.claims now <;>
        cases hd : decide (t.key = secret) <;>
          simp_all
    · rw [if_neg hm] at h
      simp at h

/-- A token verifies successfully only when it is the well-formed input
itself and its claims hold a numeric exp not earlier than now. -/
theorem validateToken_ok_inv (secret : String) (now : Int)
    (inp : TokenInput) (tok : RawToken)
    (h : ValidateToken secret now inp = Except.ok tok) :
    inp = TokenInput.raw tok ∧
      ∃ e : Int, lookupClaim tok.claims "exp" = some (.num e) ∧ now ≤ e := by
  cases inp with
  | empty => simp [ValidateToken] at h
  | malformed => simp [ValidateToken, jwtParse] at h
  | raw t =>
    simp only [ValidateToken] at h
    cases hp : jwtParse secret now (.raw t) with
    | error err => rw [hp] at h; simp at h
    | ok tok₀ =>
      have ht : TokenInput.raw t = TokenInput.raw tok₀ :=
        jwtParse_ok_inversion secret now (.raw t) tok₀ hp
      rw [hp] at h
      cases hl : lookupClaim tok₀.claims "exp" with
      | none => simp [hl] at h
      | some v =>
        cases v with
        | str s => simp [hl] at h
        | other => simp [hl] at h
        | num e =>
          simp only [hl] at h
          split at h
          · exact absurd h (by simp)
          · rename_i hng
            cases h
            exact ⟨ht, e, hl, by omega⟩

/-- A well-formed token, HMAC-signed with the right secret, with no exp
claim at all but a not-yet-reached nbf claim. -/
def demoNbfToken : RawToken :=
  { method := .hmac, claims := [("nbf", .num 2000)], key := "topsecret" }

/-- C10 counterexample: a token correctly signed with the secret by HMAC
and well-formed, whose claims hold no numeric exp, for which
ValidateToken fails with the library's not-valid-yet validation error
rather than the invalid-expiration-claim error the claim requires. -/
theorem validate_no_exp_counterexample :
    demoNbfToken.method = SigMethod.hmac ∧
    demoNbfToken.key = "topsecret" ∧
    lookupClaim demoNbfToken.claims "exp" = none ∧
    ValidateToken "topsecret" 1000 (.raw demoNbfToken) =
      .error (.jwtValidation { notValidYet := true }) ∧
    GoErr.jwtValidation { notValidYet := true } ≠
      GoErr.msg "invalid expiration claim" :=
  ⟨rfl, rfl, rfl, rfl, by decide⟩

/-- C10 amended: for a well-formed token signed by HMAC with the secret
whose claims hold no numeric exp and pass the library's iat and nbf
checks, ValidateToken fails with the invalid-expiration-claim error; and
for every token without a numeric exp claim, ValidateToken never
succeeds. -/
theorem validate_no_numeric_exp
    (secret : String) (now : Int) (t : RawToken)
    (hm : t.method = SigMethod.hmac) (hk : t.key = secret)
    (hnoexp : ∀ x : Int, lookupClaim t.claims "exp" ≠ some (.num x))
    (hiat : verifyIatAt t.claims now = true)
    (hnbf : verifyNbfAt t.claims now = true) :
    ValidateToken secret now (.raw t) =
      .error (.msg "invalid expiration claim") ∧
    ∀ t' : RawToken, (∀ x : Int, lookupClaim t'.claims "exp" ≠ some (.num x)) →
      ∀ tok, ValidateToken secret now (.raw t') ≠ Except.ok tok := by
  have hexpAt : verifyExpAt t.claims now = true := by
    unfold verifyExpAt
    cases hl : lookupClaim t.claims "exp" with
    | none => rfl
    | some v =>
      cases v with
      | num x => exact absurd hl (hnoexp x)
      | str s => rfl
      | other => rfl
  constructor
  · cases hl : lookupClaim t.claims "exp" with
    | none =>
      simp [ValidateToken, jwtParse, mapClaimsValid, hm, hk, hexpAt, hiat, hnbf, hl]
    | some v =>
      cases v with
      | num x => exact absurd hl (hnoexp x)
      | str s =>
        simp [ValidateToken, jwtParse, mapClaimsValid, hm, hk, hexpAt, hiat, hnbf, hl]
      | other =>
        simp [ValidateToken, jwtParse, mapClaimsValid, hm, hk, hexpAt, hiat, hnbf, hl]
  · intro t' hno tok hcontra
    rcases validateToken_ok_inv secret now (.raw t') tok hcontra with ⟨hraw, e, hle, _⟩
    cases hraw
    exact hno e hle

/-- A well-formed HMAC token signed with the secret whose only claims are
identity strings: no exp at all. -/
def demoNoExpToken : RawToken :=
  { method := .hmac,
    claims := [("userId", .str "u1"), ("username", .str "alice")],
    key := "topsecret" }

/-- Witness for amended C10: demoNoExpToken verified at time 1000. -/
theorem validate_no_numeric_exp_witness :
    ValidateToken "topsecret" 1000 (.raw demoNoExpToken) =
      .error (.msg "invalid expiration claim") ∧
    ∀ t' : RawToken, (∀ x : Int, lookupClaim t'.claims "exp" ≠ some (.num x)) →
      ∀ tok, ValidateToken "topsecret" 1000 (.raw t') ≠ Except.ok tok :=
  validate_no_numeric_exp "topsecret" 1000 demoNoExpToken rfl rfl
    (fun x h => by simp [demoNoExpToken, lookupClaim] at h) rfl rfl

/-- The token the service issues for user id1 / alice / admin at time 0
with the demo secret: claims userId, username, role and exp = 86400. -/
def demoIssuedToken : RawToken :=
  { method := .hmac,
    claims := [("userId", .str "id1"), ("username", .str "alice"),
               ("role", .str "admin"), ("exp", .num 86400)],
    key := "s3cret" }

/-- C2 evaluated at a failing input: GenerateToken issues
demoIssuedToken; verified while still fresh, the middleware proceeds but
attaches as userID the value of the token's absent sub claim (none)
instead of the issued user id, while username and role are attached as
issued — the issuer writes the id under the userId claim, the middleware
reads the sub claim. -/
theorem auth_middleware_drops_user_id :
    GenerateToken "s3cret" 0 "id1" "alice" "admin" = .ok demoIssuedToken ∧
    authHandler "s3cret" 100 (.raw demoIssuedToken) =
      .proceed { userID := none,
                 username := some (.str "alice"),
                 role := some (.str "admin") } ∧
    lookupClaim demoIssuedToken.claims "userId" = some (.str "id1") ∧
    lookupClaim demoIssuedToken.claims "sub" = none :=
  ⟨rfl, rfl, rfl, rfl⟩

/-- A task store that accepts everything it is handed. -/
def demoTaskRepo : TaskRepo :=
  { createTask := fun t => .ok t, updateTask := fun _ t => .ok t }

/-- C5 counterexample: a task whose due date equals the current instant
is accepted by CreateTask (delegated with status defaulted to pending),
not rejected with the future-date validation error. -/
theorem create_task_equal_due_date_counterexample :
    CreateTask demoTaskRepo 1000
        { title := "t", description := "d", dueDate := 1000, status := "" } =
      (Except.ok { title := "t", description := "d", dueDate := 1000, status := "pending" },
       [TaskEvent.createTask
          { title := "t", description := "d", dueDate := 1000, status := "pending" }]) ∧
    (CreateTask demoTaskRepo 1000
        { title := "t", description := "d", dueDate := 1000, status := "" }).1 ≠
      Except.error (.msg "due date must be in the future") :=
  ⟨rfl, by simp [CreateTask, demoTaskRepo, validStatus]⟩

/-- C5 amended: with non-empty title and description and a non-zero due
date, CreateTask fails with the future-date validation error whenever
the due date is strictly before the current instant; a due date exactly
equal to the current instant passes the date check, and with no status
supplied the task is delegated to the store with status pending. -/
theorem create_task_due_date_rule
    (repo : TaskRepo) (now : Int) (task : Task)
    (ht : task.title ≠ "") (hd : task.description ≠ "") (hz : task.dueDate ≠ 0) :
    (task.dueDate < now →
      CreateTask repo now task =
        (.error (.msg "due date must be in the future"), [])) ∧
    (task.dueDate = now → task.status = "" →
      CreateTask repo now task =
        (repo.createTask { task with status := "pending" },
         [TaskEvent.createTask { task with status := "pending" }])) := by
  constructor
  · intro hlt
    by_cases hs : task.status = "" <;>
      simp [CreateTask, ht, hd, hz, hs, hlt]
  · intro heq hs
    have hnlt : ¬ task.dueDate < now := by omega
    simp [CreateTask, ht, hd, hz, hs, hnlt, validStatus]

/-- The task used in the C5 witness: due yesterday relative to now. -/
def demoPastTask : Task :=
  { title := "t", description := "d", dueDate := 500, status := "" }

/-- Witness for amended C5: a strictly past due date (500 at time 1000)
is rejected with the future-date error. -/
theorem create_task_due_date_rule_witness :
    (demoPastTask.dueDate < 1000 →
      CreateTask demoTaskRepo 1000 demoPastTask =
        (.error (.msg "due date must be in the future"), [])) ∧
    (demoPastTask.dueDate = 1000 → demoPastTask.status = "" →
      CreateTask demoTaskRepo 1000 demoPastTask =
        (demoTaskRepo.createTask { demoPastTask with status := "pending" },
         [TaskEvent.createTask { demoPastTask with status := "pending" }])) :=
  create_task_due_date_rule demoTaskRepo 1000 demoPastTask
    (by decide) (by decide) (by decide)

/-- C7: with a non-empty id and a partial update whose title, description
and status are empty and whose due date is the zero time, UpdateTask
fails with the no-fields-provided error and the store's update operation
is never invoked. -/
theorem update_task_no_fields
    (repo : TaskRepo) (now : Int) (id : String) (task : Task)
    (hid : id ≠ "") (h1 : task.title = "") (h2 : task.description = "")
    (h3 : task.dueDate = 0) (h4 : task.status = "") :
    (UpdateTask repo now id task).1 =
      Except.error (.msg "no valid fields provided for update") ∧
    ∀ i t, TaskEvent.updateTask i t ∉ (UpdateTask repo now id task).2 := by
  have h : UpdateTask repo now id task =
      (.error (.msg "no valid fields provided for update"), []) := by
    simp [UpdateTask, hid, h1, h2, h3, h4]
  rw [h]
  simp

/-- Witness for C7: the all-empty partial update against task1. -/
theorem update_task_no_fields_witness :
    (UpdateTask demoTaskRepo 1000 "task1"
        { title := "", description := "", dueDate := 0, status := "" }).1 =
      Except.error (.msg "no valid fields provided for update") ∧
    ∀ i t, TaskEvent.updateTask i t ∉
      (UpdateTask demoTaskRepo 1000 "task1"
        { title := "", description := "", dueDate := 0, status := "" }).2 :=
  update_task_no_fields demoTaskRepo 1000 "task1"
    { title := "", description := "", dueDate := 0, status := "" }
    (by decide) rfl rfl rfl rfl

/-- C8: every password of at most 72 bytes (the empty password included)
hashes successfully, the produced hash verifies against the password via
CheckPassword, and two hashing calls drawing distinct salts from the
random source produce two different hash values, comparable only through
CheckPassword. -/
theorem hash_password_roundtrip
    (p : String) (s₁ s₂ : Nat)
    (hlen : p.utf8ByteSize ≤ 72) (hs : s₁ ≠ s₂) :
    ∃ h₁ h₂, HashPassword s₁ p = .ok h₁ ∧ HashPassword s₂ p = .ok h₂ ∧
      CheckPassword h₁ p = true ∧ CheckPassword h₂ p = true ∧ h₁ ≠ h₂ := by
  have hn : ¬ 72 < p.utf8ByteSize := by omega
  refine ⟨{ cost := bcryptDefaultCost, salt := s₁,
            digest := bcryptKey bcryptDefaultCost s₁ p },
          { cost := bcryptDefaultCost, salt := s₂,
            digest := bcryptKey bcryptDefaultCost s₂ p },
          ?_, ?_, ?_, ?_, ?_⟩
  · simp [HashPassword, generateFromPassword, hn]
  · simp [HashPassword, generateFromPassword, hn]
  · simp [CheckPassword, compareHashAndPassword, hlen]
  · simp [CheckPassword, compareHashAndPassword, hlen]
  · intro hcontra
    exact hs (congrArg BcryptHash.salt hcontra)

/-- Witness for C8: the empty password with salts 0 and 1. -/
theorem hash_password_roundtrip_witness :
    ∃ h₁ h₂, HashPassword 0 "" = .ok h₁ ∧ HashPassword 1 "" = .ok h₂ ∧
      CheckPassword h₁ "" = true ∧ CheckPassword h₂ "" = true ∧ h₁ ≠ h₂ :=
  hash_password_roundtrip "" 0 1 (by decide) (by decide)

end TaskMgmt
